import Mathlib

/-!
Verification of the Naver news scraping pipeline
(`src/dags/news_scraping_dag.py`).

The DAG has three stages:
1. `get_all_article_urls` — discovery over sections 100..105, merged with
   `list(set(...))` (duplicates discarded);
2. `filter_new_urls` — batched existence check
   (`SELECT url FROM naver_news WHERE url = ANY(%s)`) followed by an
   in-memory filter of the candidate list;
3. `scrape_and_save_news` (dynamically mapped) — per-URL fetch via
   `get_news_content`, skip when the result is falsy or the title is
   empty/missing, otherwise
   `INSERT INTO naver_news ... ON CONFLICT (url) DO NOTHING`.

We embed the `naver_news` table as a list of rows, the scraper result as
`Option NewsData`, and Python exceptions as `Except String`.
-/

namespace NewsDag

/-- A row of the `naver_news` table: columns `(url, title, summary, content,
news_time)`, keyed by `url`. -/
structure NewsRecord where
  url : String
  title : String
  summary : String
  content : String
  news_time : String
deriving DecidableEq, Repr

/-- The dictionary returned by `get_news_content`, with keys
`url`, `title`, `summary`, `content`, `time`. -/
structure NewsData where
  url : String
  title : String
  summary : String
  content : String
  time : String
deriving DecidableEq, Repr

/-- The row built from one scraped dictionary, in the column order of the
`INSERT INTO naver_news (url, title, summary, content, news_time)`. -/
def toRecord (nd : NewsData) : NewsRecord :=
  ⟨nd.url, nd.title, nd.summary, nd.content, nd.time⟩

/-- The configured sections: `range(100, 106)` in `get_all_article_urls`. -/
def sections : List Nat := [100, 101, 102, 103, 104, 105]

/-- Whether the table holds a row whose `url` column equals `u`. -/
def containsUrl (store : List NewsRecord) (u : String) : Bool :=
  store.any (fun r => r.url == u)

/-- Number of rows of the table whose `url` column equals `u`. -/
def urlCount (store : List NewsRecord) (u : String) : Nat :=
  store.countP (fun r => r.url == u)

/-- The first row of the table whose `url` column equals `u`, if any. -/
def findRecord (store : List NewsRecord) (u : String) : Option NewsRecord :=
  store.find? (fun r => r.url == u)

/-- `INSERT INTO naver_news ... ON CONFLICT (url) DO NOTHING`: append the row
unless a row with the same `url` key is already present. -/
def insertNews (store : List NewsRecord) (rec : NewsRecord) : List NewsRecord :=
  if containsUrl store rec.url then store else store ++ [rec]

/-- `get_all_article_urls`: extend a single list across all sections, then
`list(set(all_urls))` — one occurrence per discovered identifier. -/
def get_all_article_urls (discover : Nat → List String) : List String :=
  ((sections.map discover).flatten).dedup

/-- `filter_new_urls`: return `[]` for an empty input; otherwise query the
stored urls among `urls` (`WHERE url = ANY(%s)`) and keep the candidates not
in that set. -/
def filter_new_urls (urls : List String) (store : List NewsRecord) : List String :=
  if urls.isEmpty then []
  else
    let existing_urls := (store.map (fun r => r.url)).filter (fun v => urls.any (fun w => w == v))
    urls.filter (fun u => !(existing_urls.any (fun v => v == u)))

/-- `scrape_and_save_news`, with the scraper passed as `fetch`: return the
store unchanged when `news_data` is falsy or its title is empty, otherwise
perform the conflict-ignoring insert of the scraped row. -/
def scrape_and_save_news (fetch : String → Option NewsData)
    (store : List NewsRecord) (url : String) : List NewsRecord :=
  match fetch url with
  | none => store
  | some nd => if nd.title = "" then store else insertNews store (toRecord nd)

/-- The mapped fan-out stage: fold `scrape_and_save_news` over the new urls.
The mapped tasks commute (each touches a single key with a conditional
insert), so the sequential fold embeds the parallel `.expand`. -/
def runFanout (fetch : String → Option NewsData)
    (store : List NewsRecord) (urls : List String) : List NewsRecord :=
  urls.foldl (scrape_and_save_news fetch) store

/-- One full run of `naver_news_scraping_dag_with_db`:
discovery, dedup, fan-out insert. -/
def runOnce (discover : Nat → List String) (fetch : String → Option NewsData)
    (store : List NewsRecord) : List NewsRecord :=
  runFanout fetch store (filter_new_urls (get_all_article_urls discover) store)

/-! ### Basic lemmas about the store primitives -/

theorem containsUrl_iff (store : List NewsRecord) (u : String) :
    containsUrl store u = true ↔ ∃ r ∈ store, r.url = u := by
  simp [containsUrl, List.any_eq_true]

theorem containsUrl_append (s t : List NewsRecord) (u : String) :
    containsUrl (s ++ t) u = (containsUrl s u || containsUrl t u) := by
  simp [containsUrl, List.any_append]

theorem insertNews_of_contains {store : List NewsRecord} {rec : NewsRecord}
    (h : containsUrl store rec.url = true) : insertNews store rec = store := by
  simp [insertNews, h]

theorem insertNews_of_not_contains {store : List NewsRecord} {rec : NewsRecord}
    (h : containsUrl store rec.url = false) :
    insertNews store rec = store ++ [rec] := by
  simp [insertNews, h]

theorem containsUrl_insertNews_self (store : List NewsRecord) (rec : NewsRecord) :
    containsUrl (insertNews store rec) rec.url = true := by
  by_cases h : containsUrl store rec.url = true
  · simp [insertNews_of_contains h, h]
  · rw [insertNews_of_not_contains (Bool.eq_false_iff.mpr h)]
    simp [containsUrl_append, containsUrl]

theorem containsUrl_mono (store : List NewsRecord) (rec : NewsRecord)
    {v : String} (h : containsUrl store v = true) :
    containsUrl (insertNews store rec) v = true := by
  unfold insertNews
  by_cases hc : containsUrl store rec.url = true
  · simpa [hc]
  · simp [hc, containsUrl_append, h]

/-- Membership in the output of `filter_new_urls`: exactly the candidates
whose url is not already stored. -/
theorem mem_filter_new_urls (urls : List String) (store : List NewsRecord)
    (u : String) :
    u ∈ filter_new_urls urls store ↔ u ∈ urls ∧ containsUrl store u = false := by
  unfold filter_new_urls
  by_cases he : urls.isEmpty
  · have : urls = [] := List.isEmpty_iff.mp he
    subst this
    simp
  · have he' : urls.isEmpty = false := by simpa using he
    rw [he']
    simp only [Bool.false_eq_true, if_false, List.mem_filter]
    constructor
    · rintro ⟨hu, hp⟩
      refine ⟨hu, ?_⟩
      simp only [Bool.not_eq_true', List.any_eq_false] at hp
      rw [Bool.eq_false_iff]
      intro hc
      rcases (containsUrl_iff store u).mp hc with ⟨r, hr, hru⟩
      have : r.url ∈ (store.map (fun r => r.url)).filter
          (fun v => urls.any (fun w => w == v)) := by
        rw [List.mem_filter]
        refine ⟨List.mem_map_of_mem _ hr, ?_⟩
        rw [List.any_eq_true]
        exact ⟨u, hu, by simp [hru]⟩
      have := hp _ this
      simp [hru] at this
    · rintro ⟨hu, hc⟩
      refine ⟨hu, ?_⟩
      simp only [Bool.not_eq_true', List.any_eq_false]
      intro v hv
      rw [List.mem_filter] at hv
      rcases hv with ⟨hvm, _⟩
      rcases List.mem_map.mp hvm with ⟨r, hr, hru⟩
      intro hvu
      rw [beq_iff_eq] at hvu
      subst hvu
      rw [Bool.eq_false_iff] at hc
      exact hc ((containsUrl_iff store v).mpr ⟨r, hr, hru⟩)

/-! ### Lemmas about the fan-out stage -/

/-- After `u` has been handled, its fetch result is accounted for: either
there was nothing to store (no article / empty title) or the scraped row's
url is in the store. -/
def fetchInserted (fetch : String → Option NewsData)
    (store : List NewsRecord) (u : String) : Prop :=
  match fetch u with
  | none => True
  | some nd => nd.title = "" ∨ containsUrl store (toRecord nd).url = true

theorem scrape_containsUrl_mono (fetch : String → Option NewsData)
    (store : List NewsRecord) (url : String) {v : String}
    (h : containsUrl store v = true) :
    containsUrl (scrape_and_save_news fetch store url) v = true := by
  unfold scrape_and_save_news
  cases hf : fetch url with
  | none => exact h
  | some nd =>
    by_cases ht : nd.title = ""
    · simpa [ht]
    · simpa [ht] using containsUrl_mono store (toRecord nd) h

theorem runFanout_containsUrl_mono (fetch : String → Option NewsData)
    (urls : List String) (store : List NewsRecord) {v : String}
    (h : containsUrl store v = true) :
    containsUrl (runFanout fetch store urls) v = true := by
  induction urls generalizing store with
  | nil => exact h
  | cons a rest ih =>
    exact ih _ (scrape_containsUrl_mono fetch store a h)

theorem fetchInserted_mono {fetch : String → Option NewsData}
    {store : List NewsRecord} {u : String} (urls : List String)
    (h : fetchInserted fetch store u) :
    fetchInserted fetch (runFanout fetch store urls) u := by
  unfold fetchInserted at h ⊢
  cases hf : fetch u with
  | none => trivial
  | some nd =>
    rw [hf] at h
    rcases h with h | h
    · exact Or.inl h
    · exact Or.inr (runFanout_containsUrl_mono fetch urls store h)

theorem scrape_fetchInserted_self (fetch : String → Option NewsData)
    (store : List NewsRecord) (u : String) :
    fetchInserted fetch (scrape_and_save_news fetch store u) u := by
  unfold fetchInserted scrape_and_save_news
  cases hf : fetch u with
  | none => trivial
  | some nd =>
    by_cases ht : nd.title = ""
    · exact Or.inl ht
    · simp only [ht, if_false]
      exact Or.inr (containsUrl_insertNews_self store (toRecord nd))

/-- Every url of the processed batch is accounted for in the final store. -/
theorem runFanout_fetchInserted (fetch : String → Option NewsData)
    (urls : List String) (store : List NewsRecord) {u : String}
    (hu : u ∈ urls) :
    fetchInserted fetch (runFanout fetch store urls) u := by
  induction urls generalizing store with
  | nil => cases hu
  | cons a rest ih =>
    rcases List.mem_cons.mp hu with rfl | hmem
    · exact fetchInserted_mono rest (scrape_fetchInserted_self fetch store u)
    · exact ih _ hmem

/-- Handling a url whose fetch result is already accounted for leaves the
store untouched. -/
theorem scrape_noop {fetch : String → Option NewsData}
    {store : List NewsRecord} {u : String}
    (h : fetchInserted fetch store u) :
    scrape_and_save_news fetch store u = store := by
  unfold fetchInserted at h
  unfold scrape_and_save_news
  cases hf : fetch u with
  | none => rfl
  | some nd =>
    rw [hf] at h
    rcases h with ht | hc
    · simp [ht]
    · by_cases ht : nd.title = ""
      · simp [ht]
      · simp only [ht, if_false]
        exact insertNews_of_contains hc

theorem runFanout_noop {fetch : String → Option NewsData}
    {store : List NewsRecord} {urls : List String}
    (h : ∀ u ∈ urls, fetchInserted fetch store u) :
    runFanout fetch store urls = store := by
  induction urls with
  | nil => rfl
  | cons a rest ih =>
    have ha := scrape_noop (h a (List.mem_cons_self a rest))
    show runFanout fetch (scrape_and_save_news fetch store a) rest = store
    rw [ha]
    exact ih (fun u hu => h u (List.mem_cons_of_mem a hu))

/-! ### Counting lemmas for the duplicate-freedom invariant -/

theorem urlCount_pos_iff (store : List NewsRecord) (u : String) :
    0 < urlCount store u ↔ containsUrl store u = true := by
  rw [urlCount, List.countP_pos_iff, containsUrl_iff]
  simp

theorem urlCount_eq_zero_of_not_contains {store : List NewsRecord} {u : String}
    (h : containsUrl store u = false) : urlCount store u = 0 := by
  by_contra hne
  have hpos : 0 < urlCount store u := Nat.pos_of_ne_zero hne
  rw [urlCount_pos_iff, h] at hpos
  exact Bool.false_ne_true hpos

theorem urlCount_insertNews_le {store : List NewsRecord} (rec : NewsRecord)
    (h : ∀ u, urlCount store u ≤ 1) :
    ∀ u, urlCount (insertNews store rec) u ≤ 1 := by
  intro u
  by_cases hc : containsUrl store rec.url = true
  · rw [insertNews_of_contains hc]; exact h u
  · rw [insertNews_of_not_contains (Bool.eq_false_iff.mpr hc)]
    rw [urlCount, List.countP_append, ← urlCount]
    by_cases hu : rec.url = u
    · have h0 : urlCount store u = 0 := by
        rw [← hu]
        exact urlCount_eq_zero_of_not_contains (Bool.eq_false_iff.mpr hc)
      simp [h0, List.countP, List.countP.go, hu]
    · have h1 : List.countP (fun r => r.url == u) [rec] = 0 := by
        simp [beq_iff_eq, hu]
      rw [h1]
      exact h u

/-! ### Claim theorems -/

/-- C1. At most one record per identifier ever exists in the store: a
conflict-ignoring insert on a store that already holds exactly one record
for the inserted key leaves exactly one record for it, and any sequence of
such inserts preserves the at-most-one-record-per-url invariant. -/
theorem insertNews_no_duplicate (store : List NewsRecord) (rec : NewsRecord)
    (recs : List NewsRecord) :
    (urlCount store rec.url = 1 →
      urlCount (insertNews store rec) rec.url = 1) ∧
    ((∀ u, urlCount store u ≤ 1) →
      ∀ u, urlCount (List.foldl insertNews store recs) u ≤ 1) := by
  constructor
  · intro h1
    have hc : containsUrl store rec.url = true :=
      (urlCount_pos_iff store rec.url).mp (h1 ▸ Nat.zero_lt_one)
    rw [insertNews_of_contains hc]
    exact h1
  · intro hinv
    induction recs generalizing store with
    | nil => exact hinv
    | cons a rest ih =>
      exact ih _ (urlCount_insertNews_le a hinv)

theorem insertNews_no_duplicate_witness :
    urlCount (insertNews [⟨"a", "t", "s", "c", "d"⟩] ⟨"a", "t2", "s2", "c2", "d2"⟩) "a" = 1 ∧
    urlCount (List.foldl insertNews []
      [⟨"a", "t", "s", "c", "d"⟩, ⟨"a", "t2", "s2", "c2", "d2"⟩]) "a" ≤ 1 := by
  constructor
  · exact (insertNews_no_duplicate [⟨"a", "t", "s", "c", "d"⟩]
      ⟨"a", "t2", "s2", "c2", "d2"⟩ []).1 (by decide)
  · exact (insertNews_no_duplicate [] ⟨"a", "t", "s", "c", "d"⟩
      [⟨"a", "t", "s", "c", "d"⟩, ⟨"a", "t2", "s2", "c2", "d2"⟩]).2
      (fun u => by simp [urlCount]) "a"

/-- C2. `filter_new_urls` returns exactly the candidates whose key is absent
from the store: every returned url is a candidate not yet stored, and every
candidate not yet stored is returned. -/
theorem filter_new_urls_dedup_correct (urls : List String)
    (store : List NewsRecord) (u : String) :
    u ∈ filter_new_urls urls store ↔ u ∈ urls ∧ containsUrl store u = false :=
  mem_filter_new_urls urls store u

/-- C5. A fetch result that is missing or has an empty title never reaches
the store: `scrape_and_save_news` returns with the store unchanged. -/
theorem scrape_skips_missing_or_untitled (fetch : String → Option NewsData)
    (store : List NewsRecord) (url : String)
    (h : fetch url = none ∨ ∃ nd, fetch url = some nd ∧ nd.title = "") :
    scrape_and_save_news fetch store url = store := by
  unfold scrape_and_save_news
  rcases h with h | ⟨nd, hnd, ht⟩
  · rw [h]
  · rw [hnd]
    simp [ht]

theorem scrape_skips_missing_or_untitled_witness :
    scrape_and_save_news (fun _ => some ⟨"u", "", "s", "c", "d"⟩) [] "u" = [] :=
  scrape_skips_missing_or_untitled _ [] "u"
    (Or.inr ⟨⟨"u", "", "s", "c", "d"⟩, rfl, rfl⟩)

/-- C7. An empty candidate set, or one whose every member is already stored,
yields an empty new-url set, and the fan-out over it performs zero inserts:
the store is unchanged. -/
theorem empty_or_stored_candidates_noop (urls : List String)
    (store : List NewsRecord) (fetch : String → Option NewsData)
    (h : urls = [] ∨ ∀ u ∈ urls, containsUrl store u = true) :
    filter_new_urls urls store = [] ∧
    runFanout fetch store (filter_new_urls urls store) = store := by
  have hnil : filter_new_urls urls store = [] := by
    rw [List.eq_nil_iff_forall_not_mem]
    intro u hu
    rw [mem_filter_new_urls] at hu
    rcases h with rfl | hall
    · cases hu.1
    · rw [hall u hu.1] at hu
      exact absurd hu.2 (by decide)
  exact ⟨hnil, by rw [hnil]; rfl⟩

theorem empty_or_stored_candidates_noop_witness :
    filter_new_urls ["a"] [⟨"a", "t", "s", "c", "d"⟩] = [] ∧
    runFanout (fun _ => none) [⟨"a", "t", "s", "c", "d"⟩]
      (filter_new_urls ["a"] [⟨"a", "t", "s", "c", "d"⟩]) =
      [⟨"a", "t", "s", "c", "d"⟩] :=
  empty_or_stored_candidates_noop ["a"] [⟨"a", "t", "s", "c", "d"⟩]
    (fun _ => none) (Or.inr (by decide))

/-- C10. The conflict-ignoring insert never updates an existing row: if the
store already holds a record for url `u`, running the ingestion unit on `u`
leaves that record — all its fields — unchanged, whatever the fetch returns. -/
theorem scrape_preserves_existing_record (fetch : String → Option NewsData)
    (store : List NewsRecord) (u : String) (r : NewsRecord)
    (h : findRecord store u = some r) :
    findRecord (scrape_and_save_news fetch store u) u = some r := by
  unfold scrape_and_save_news
  cases hf : fetch u with
  | none => exact h
  | some nd =>
    by_cases ht : nd.title = ""
    · simpa [ht]
    · simp only [ht, if_false]
      by_cases hc : containsUrl store (toRecord nd).url = true
      · rw [insertNews_of_contains hc]
        exact h
      · rw [insertNews_of_not_contains (Bool.eq_false_iff.mpr hc)]
        unfold findRecord at h ⊢
        rw [List.find?_append, h]
        rfl

theorem scrape_preserves_existing_record_witness :
    findRecord (scrape_and_save_news (fun _ => some ⟨"a", "NEW", "s2", "c2", "d2"⟩)
      [⟨"a", "t", "s", "c", "d"⟩] "a") "a" = some ⟨"a", "t", "s", "c", "d"⟩ :=
  scrape_preserves_existing_record _ [⟨"a", "t", "s", "c", "d"⟩] "a"
    ⟨"a", "t", "s", "c", "d"⟩ (by decide)

/-- C3. Re-running the full pipeline against an unchanged source (same
discovery and fetch results) inserts nothing on the second run: the store
after the second run equals the store after the first. -/
theorem runOnce_idempotent (discover : Nat → List String)
    (fetch : String → Option NewsData) (store : List NewsRecord) :
    runOnce discover fetch (runOnce discover fetch store) =
      runOnce discover fetch store := by
  show runFanout fetch (runOnce discover fetch store)
      (filter_new_urls (get_all_article_urls discover)
        (runOnce discover fetch store)) = runOnce discover fetch store
  apply runFanout_noop
  intro u hu
  rw [mem_filter_new_urls] at hu
  obtain ⟨hc, hnc⟩ := hu
  by_cases h0 : containsUrl store u = true
  · exfalso
    have : containsUrl (runOnce discover fetch store) u = true :=
      runFanout_containsUrl_mono fetch _ store h0
    rw [this] at hnc
    exact absurd hnc (by decide)
  · have hu1 : u ∈ filter_new_urls (get_all_article_urls discover) store :=
      (mem_filter_new_urls _ store u).mpr ⟨hc, Bool.eq_false_iff.mpr h0⟩
    exact runFanout_fetchInserted fetch _ store hu1

/-- C6. An identifier discovered in any (possibly several) sections appears
exactly once in the merged candidate set, and hence at most once in the
new-url list the fan-out maps fetch over. -/
theorem get_all_article_urls_unique (discover : Nat → List String) (u : String)
    (h : ∃ s ∈ sections, u ∈ discover s) :
    List.count u (get_all_article_urls discover) = 1 ∧
    ∀ store, List.count u (filter_new_urls (get_all_article_urls discover) store) ≤ 1 := by
  have hmem : u ∈ (sections.map discover).flatten := by
    rw [List.mem_flatten]
    rcases h with ⟨s, hs, hu⟩
    exact ⟨discover s, List.mem_map_of_mem discover hs, hu⟩
  have hnd : (get_all_article_urls discover).Nodup := List.nodup_dedup _
  constructor
  · exact List.count_eq_one_of_mem hnd (List.mem_dedup.mpr hmem)
  · intro store
    have : (filter_new_urls (get_all_article_urls discover) store).Nodup := by
      unfold filter_new_urls
      by_cases he : (get_all_article_urls discover).isEmpty
      · simp [he]
      · have he' : (get_all_article_urls discover).isEmpty = false := by
          simpa using he
        rw [he']
        simp only [Bool.false_eq_true, if_false]
        exact List.Nodup.filter _ hnd
    exact List.nodup_iff_count_le_one.mp this u

theorem get_all_article_urls_unique_witness :
    List.count "n1" (get_all_article_urls
      (fun s => if s ≤ 101 then ["n1"] else [])) = 1 ∧
    List.count "n1" (filter_new_urls (get_all_article_urls
      (fun s => if s ≤ 101 then ["n1"] else [])) []) ≤ 1 := by
  refine ⟨(get_all_article_urls_unique (fun s => if s ≤ 101 then ["n1"] else [])
    "n1" ⟨100, by decide, by decide⟩).1, ?_⟩
  exact (get_all_article_urls_unique (fun s => if s ≤ 101 then ["n1"] else [])
    "n1" ⟨100, by decide, by decide⟩).2 []

/-! ### Exception-level embedding

Python exceptions are embedded as `Except String`. The DAG wraps none of its
calls in `try/except`, so any exception raised by `get_urls_from_section`,
`get_news_content` or a Postgres hook propagates out of the task. -/

/-- Whether an `Except` computation finished without raising. -/
def exceptIsOk {α : Type} : Except String α → Bool
  | .ok _ => true
  | .error _ => false

/-- The loop body of `get_all_article_urls` when `get_urls_from_section` can
raise: `all_urls.extend(urls)` section by section, with no handler, then
`list(set(all_urls))`. -/
def getAllArticleUrlsGo (discover : Nat → Except String (List String)) :
    List Nat → List String → Except String (List String)
  | [], acc => .ok acc.dedup
  | s :: rest, acc =>
    match discover s with
    | .error e => .error e
    | .ok urls => getAllArticleUrlsGo discover rest (acc ++ urls)

/-- `get_all_article_urls` over a fallible `get_urls_from_section`. -/
def getAllArticleUrlsE (discover : Nat → Except String (List String)) :
    Except String (List String) :=
  getAllArticleUrlsGo discover sections []

/-- A discovery function that fails on section 102 only. -/
def discoverFail102 : Nat → Except String (List String) :=
  fun s => if s == 102 then .error "connection reset" else .ok [toString s ++ "/0001"]

/-- `scrape_and_save_news` over a fallible `get_news_content`: an exception
raised by the fetch propagates out of the task; otherwise the task returns
(with the resulting store) as in the pure model. -/
def scrapeAndSaveE (fetch : String → Except String (Option NewsData))
    (store : List NewsRecord) (url : String) : Except String (List NewsRecord) :=
  match fetch url with
  | .error e => .error e
  | .ok none => .ok store
  | .ok (some nd) =>
    if nd.title = "" then .ok store else .ok (insertNews store (toRecord nd))

/-- A fetch that always raises. -/
def fetchRaise : String → Except String (Option NewsData) :=
  fun _ => .error "HTTPError 500"

/-- A fetch that returns no article. -/
def fetchNone : String → Except String (Option NewsData) :=
  fun _ => .ok none

/-- A Postgres connection as the tasks see it: either reachable, holding the
`naver_news` rows, or unreachable, in which case every hook call raises. -/
structure StoreConn where
  avail : Bool
  recs : List NewsRecord

/-- `filter_new_urls` against a possibly unreachable store: the empty-input
short-circuit happens before the hook is used; otherwise the
`hook.get_records` call raises when the store is unreachable. -/
def filterNewUrlsC (urls : List String) (c : StoreConn) :
    Except String (List String) :=
  if urls.isEmpty then .ok []
  else if c.avail then .ok (filter_new_urls urls c.recs)
  else .error "store unreachable"

/-- `scrape_and_save_news` against a possibly unreachable store: the skip
branches return before any hook call; the `hook.run` insert raises when the
store is unreachable. -/
def scrapeAndSaveC (fetch : String → Option NewsData) (c : StoreConn)
    (url : String) : Except String StoreConn :=
  match fetch url with
  | none => .ok c
  | some nd =>
    if nd.title = "" then .ok c
    else if c.avail then .ok ⟨c.avail, insertNews c.recs (toRecord nd)⟩
    else .error "store unreachable"

theorem getAllArticleUrlsGo_error (discover : Nat → Except String (List String))
    (l : List Nat) (acc : List String) {s : Nat} (hs : s ∈ l)
    (he : exceptIsOk (discover s) = false) :
    exceptIsOk (getAllArticleUrlsGo discover l acc) = false := by
  induction l generalizing acc with
  | nil => cases hs
  | cons a rest ih =>
    show exceptIsOk (getAllArticleUrlsGo discover (a :: rest) acc) = false
    rcases List.mem_cons.mp hs with rfl | hmem
    · unfold getAllArticleUrlsGo
      cases hd : discover s with
      | error e => rfl
      | ok urls => rw [hd] at he; exact absurd he (by simp [exceptIsOk])
    · unfold getAllArticleUrlsGo
      cases hd : discover a with
      | error e => rfl
      | ok urls => exact ih _ hmem

/-! ### Claim theorems about error propagation -/

/-- C4 fails on the code as stated: with a discovery function that fails on
exactly one of the six sections (102) and succeeds on the others, the
discovery stage raises instead of returning the remaining sections'
candidates. -/
theorem get_all_article_urls_failure_counterexample :
    sections.countP (fun s => !(exceptIsOk (discoverFail102 s))) = 1 ∧
    exceptIsOk (getAllArticleUrlsE discoverFail102) = false := by
  constructor
  · rfl
  · rfl

/-- C4 (amended). `get_all_article_urls` has no per-section handler: if
discovery raises for any configured section, the exception propagates and
the discovery stage — hence the run — fails, returning no candidates. -/
theorem get_all_article_urls_section_failure_propagates
    (discover : Nat → Except String (List String)) (s : Nat)
    (hs : s ∈ sections) (he : exceptIsOk (discover s) = false) :
    exceptIsOk (getAllArticleUrlsE discover) = false :=
  getAllArticleUrlsGo_error discover sections [] hs he

theorem get_all_article_urls_section_failure_propagates_witness :
    exceptIsOk (getAllArticleUrlsE discoverFail102) = false :=
  get_all_article_urls_section_failure_propagates discoverFail102 102
    (by decide) rfl

/-- C8 fails on the code as stated: an ingestion unit whose fetch raises
propagates the exception — the unit (and with it the run) fails with a fatal
error even though discovery has produced a candidate set, and no outcome
ledger is produced. -/
theorem scrape_fetch_error_counterexample :
    scrapeAndSaveE fetchRaise [] "https://n.news.naver.com/a/1" =
      Except.error "HTTPError 500" := rfl

/-- C8 (amended). An ingestion unit returns no per-identifier outcome value:
when the fetch raises, the exception propagates unchanged and the unit
fails; when the fetch returns (an article, or nothing), the unit completes
without raising. -/
theorem scrapeAndSaveE_error_propagates
    (fetch : String → Except String (Option NewsData))
    (store : List NewsRecord) (url : String) :
    (∀ e, fetch url = .error e → scrapeAndSaveE fetch store url = .error e) ∧
    (∀ x, fetch url = .ok x →
      exceptIsOk (scrapeAndSaveE fetch store url) = true) := by
  constructor
  · intro e he
    unfold scrapeAndSaveE
    rw [he]
  · intro x hx
    unfold scrapeAndSaveE
    rw [hx]
    cases x with
    | none => rfl
    | some nd =>
      by_cases ht : nd.title = ""
      · simp [ht, exceptIsOk]
      · simp [ht, exceptIsOk]

theorem scrapeAndSaveE_error_propagates_witness :
    scrapeAndSaveE fetchRaise [] "u" = Except.error "HTTPError 500" ∧
    exceptIsOk (scrapeAndSaveE fetchNone [] "u") = true :=
  ⟨(scrapeAndSaveE_error_propagates fetchRaise [] "u").1 "HTTPError 500" rfl,
   (scrapeAndSaveE_error_propagates fetchNone [] "u").2 none rfl⟩

/-- C9. An unreachable store is not handled locally: the existence check
(on a non-empty candidate list) and the insert (for a fetched article with a
non-empty title) both raise, and the exception propagates to the caller. -/
theorem store_unreachable_propagates (urls : List String) (c : StoreConn)
    (fetch : String → Option NewsData) (url : String) (h : c.avail = false) :
    (urls ≠ [] → filterNewUrlsC urls c = .error "store unreachable") ∧
    (∀ nd, fetch url = some nd → nd.title ≠ "" →
      scrapeAndSaveC fetch c url = .error "store unreachable") := by
  constructor
  · intro hne
    unfold filterNewUrlsC
    have he : urls.isEmpty = false := List.isEmpty_eq_false.mpr hne
    rw [he]
    simp [h]
  · intro nd hnd ht
    unfold scrapeAndSaveC
    rw [hnd]
    simp [ht, h]

theorem store_unreachable_propagates_witness :
    filterNewUrlsC ["u"] ⟨false, []⟩ = Except.error "store unreachable" ∧
    scrapeAndSaveC (fun _ => some ⟨"u", "t", "s", "c", "d"⟩) ⟨false, []⟩ "u" =
      Except.error "store unreachable" :=
  ⟨(store_unreachable_propagates ["u"] ⟨false, []⟩
      (fun _ => some ⟨"u", "t", "s", "c", "d"⟩) "u" rfl).1 (by decide),
   (store_unreachable_propagates ["u"] ⟨false, []⟩
      (fun _ => some ⟨"u", "t", "s", "c", "d"⟩) "u" rfl).2
      ⟨"u", "t", "s", "c", "d"⟩ rfl (by decide)⟩

end NewsDag
